import Mathlib

/-!
Verification development for the defiveyor ingestion/aggregation pipeline.

The Python sources (`supported.py`, `utils.py`, `ingest.py`, `api.py`) are
shallowly embedded: pure functions become Lean functions, float APY values
are modelled as rationals, asynchronous fetch loops become functions over an
explicit list of attempt outcomes, and the asyncio gather/refresh-loop
control flow becomes explicit `Except`-passing.
-/

namespace Defiveyor

/-! ## String containment (Python `needle in haystack`) -/

/-- Checks that the first list is an initial segment of the second,
mirroring how Python's `in` operator tests candidate positions. -/
def beginsWith : List Char → List Char → Bool
  | [], _ => true
  | _ :: _, [] => false
  | a :: as, b :: bs => a == b && beginsWith as bs

/-- Checks that `needle` occurs contiguously inside `haystack`, the meaning
of Python's `needle in haystack` for strings. -/
def occursIn (needle : List Char) : List Char → Bool
  | [] => beginsWith needle []
  | c :: rest => beginsWith needle (c :: rest) || occursIn needle rest

/-- String-level wrapper for `occursIn`. -/
def strOccursIn (needle haystack : String) : Bool :=
  occursIn needle.data haystack.data

/-! ## `supported.py` -/

/-- Canonical assets, in the declaration order of the Python `Asset` enum. -/
inductive Asset
  | Bitcoin
  | Ethereum
  | DAI
  | USD_Coin
  | USD_Token
  deriving DecidableEq, Repr

/-- Enum member values from `supported.py`. -/
def Asset.value : Asset → String
  | .Bitcoin => "BTC"
  | .Ethereum => "ETH"
  | .DAI => "DAI"
  | .USD_Coin => "USDC"
  | .USD_Token => "USDT"

/-- Python's `for asset in Asset` iterates members in declaration order. -/
def Asset.all : List Asset :=
  [.Bitcoin, .Ethereum, .DAI, .USD_Coin, .USD_Token]

/-- Position of an asset in the declared enumeration order. -/
def Asset.idx : Asset → Nat
  | .Bitcoin => 0
  | .Ethereum => 1
  | .DAI => 2
  | .USD_Coin => 3
  | .USD_Token => 4

/-- The `is_stable` property from `supported.py`. -/
def Asset.is_stable : Asset → Bool
  | .DAI => true
  | .USD_Token => true
  | .USD_Coin => true
  | _ => false

/-- `Asset.map` from `supported.py`: return the first asset, in declaration
order, whose enum value is a substring of the input symbol; `none` otherwise. -/
def Asset.map (asset_symbol : String) : Option Asset :=
  Asset.all.find? (fun asset => strOccursIn asset.value asset_symbol)

instance : Fintype Asset :=
  ⟨⟨{Asset.Bitcoin, Asset.Ethereum, Asset.DAI, Asset.USD_Coin, Asset.USD_Token}, by decide⟩,
    by intro a; cases a <;> decide⟩

/-- Protocols from `supported.py`. -/
inductive Protocol
  | UniSwapV2
  | UniSwapV3
  | SushiSwap
  | Bancor
  | OneInch
  | Yearn
  | Compound
  | dYdX
  | Aave
  deriving DecidableEq, Repr

/-- Networks from `supported.py`. -/
inductive Network
  | Ethereum
  deriving DecidableEq, Repr

/-- Enum value of a network. -/
def Network.value : Network → String
  | .Ethereum => "ethereum"

/-- Risk profiles from `supported.py`. -/
inductive RiskProfile
  | Low
  | Medium
  | High
  deriving DecidableEq, Repr

/-! ## `ingest.py` data model -/

/-- `WrappedAsset` from `ingest.py`: a canonical asset with the wrapped
symbol observed at the source. -/
structure WrappedAsset where
  asset : Asset
  wrapped_symbol : String
  deriving DecidableEq, Repr

/-- `WrappedAsset.wrap`: map the symbol through the asset registry; `none`
when the registry finds no asset. -/
def WrappedAsset.wrap (symbol : String) : Option WrappedAsset :=
  match Asset.map symbol with
  | none => none
  | some asset => some ⟨asset, symbol⟩

/-- `BasicRecord` from `ingest.py`. APY floats are modelled as rationals. -/
structure BasicRecord where
  network : Network
  protocol : Protocol
  assets : List WrappedAsset
  apy : ℚ
  deriving DecidableEq, Repr

/-- Alias matching `RecordList` in `ingest.py`. -/
abbrev RecordList := List BasicRecord

/-! ## `ingest.py` HTTP fetch adapter (`_do_get`)

The adapter's loop is embedded as a function over the finite list of
outcomes the network produces for successive attempts.  `α` stands for the
decoded JSON value. -/

/-- Outcome of one HTTP GET attempt: a timeout, a non-timeout failure
(connection error, HTTP error status, malformed JSON), or a successful
decoded JSON value. -/
inductive FetchOutcome (α : Type)
  | timeout
  | failure (err : String)
  | success (value : α)
  deriving DecidableEq, Repr

/-- One step of `_do_get`'s retry loop, carrying the `attempts` counter.
Returns the final result (`none` when every listed outcome timed out and
the loop is still retrying) together with the backoff waits, in seconds,
slept between attempts. -/
def doGetAux {α : Type} (attempts : Nat) :
    List (FetchOutcome α) → Option (Except String α) × List Nat
  | [] => (none, [])
  | .success v :: _ => (some (.ok v), [])
  | .failure e :: _ => (some (.error e), [])
  | .timeout :: rest =>
    let attempts' := attempts + 1
    let wait := 2 ^ (min attempts' 5)
    let next := doGetAux attempts' rest
    (next.1, wait :: next.2)

/-- `_do_get` from `ingest.py`: attempts start with counter 0. -/
def _do_get {α : Type} (outcomes : List (FetchOutcome α)) :
    Option (Except String α) × List Nat :=
  doGetAux 0 outcomes

/-! ## `ingest.py` source connectors

Each connector is embedded as a function from that source's decoded JSON
shape to its record list.  Failure of the surrounding fetch is handled at
the aggregation layer (`ingest`). -/

/-- One reserve entry of a Bancor pool. -/
structure BancorReserve where
  symbol : String
  deriving DecidableEq, Repr

/-- One pool entry returned by the Bancor `pools` endpoint. -/
structure BancorPool where
  dlt_type : String
  reserves : List BancorReserve
  fees_24h_usd : ℚ
  liquidity_usd : ℚ
  deriving DecidableEq, Repr

/-- Bancor annualisation constant, `365.2425` in `ingest.py`. -/
def daysPerYear : ℚ := 3652425 / 10000

/-- Processing of one Bancor pool inside `_ingest_bancor`'s loop:
skip non-ethereum pools, resolve reserve symbols, drop unresolved ones,
skip when fewer than one asset resolves or liquidity is non-positive,
otherwise annualise the daily fees into an APY. -/
def bancorRecord (pool : BancorPool) : Option BasicRecord :=
  if pool.dlt_type ≠ Network.Ethereum.value then none
  else
    let assets := (pool.reserves.map (fun r => WrappedAsset.wrap r.symbol)).reduceOption
    if assets.length < 1 then none
    else if pool.liquidity_usd ≤ 0 then none
    else
      let fees_annualised := daysPerYear * pool.fees_24h_usd
      some ⟨Network.Ethereum, Protocol.Bancor, assets, fees_annualised / pool.liquidity_usd⟩

/-- `_ingest_bancor` from `ingest.py`, as a function of the decoded pool
list. -/
def _ingest_bancor (pools : List BancorPool) : RecordList :=
  pools.filterMap bancorRecord

/-- One market entry returned by the dYdX `markets` endpoint;
`totalSupplyAPY` defaults to 0 when absent, matching `market.get`. -/
structure DydxMarket where
  symbol : String
  totalSupplyAPY : ℚ
  deriving DecidableEq, Repr

/-- Processing of one dYdX market inside `_ingest_dydx`'s loop. -/
def dydxRecord (market : DydxMarket) : Option BasicRecord :=
  match WrappedAsset.wrap market.symbol with
  | none => none
  | some asset =>
    if market.totalSupplyAPY ≤ 0 then none
    else some ⟨Network.Ethereum, Protocol.dYdX, [asset], market.totalSupplyAPY⟩

/-- `_ingest_dydx` from `ingest.py`. -/
def _ingest_dydx (markets : List DydxMarket) : RecordList :=
  markets.filterMap dydxRecord

/-- One reserve entry returned by the Aave markets-data endpoint;
`liquidityRate` defaults to 0 when absent. -/
structure AaveReserve where
  symbol : String
  liquidityRate : ℚ
  deriving DecidableEq, Repr

/-- Processing of one Aave reserve inside `_ingest_aave`'s loop. -/
def aaveRecord (reserve : AaveReserve) : Option BasicRecord :=
  match WrappedAsset.wrap reserve.symbol with
  | none => none
  | some asset =>
    if reserve.liquidityRate ≤ 0 then none
    else some ⟨Network.Ethereum, Protocol.Aave, [asset], reserve.liquidityRate⟩

/-- `_ingest_aave` from `ingest.py`. -/
def _ingest_aave (reserves : List AaveReserve) : RecordList :=
  reserves.filterMap aaveRecord

/-- One vault entry returned by the Yearn `vaults/all` endpoint;
`apyOneMonthSample` is the oneMonthSample field of the apy object,
defaulted to 0 when absent or null. -/
structure YearnVault where
  name : String
  displayName : String
  apyOneMonthSample : ℚ
  deriving DecidableEq, Repr

/-- ASCII lowercasing, modelling Python's `str.lower` on the names that
occur here. -/
def lowerAscii (s : String) : String :=
  s.map Char.toLower

/-- Processing of one Yearn vault inside `_ingest_yearn`'s loop: skip
vaults whose lowercased name mentions "experimental", resolve the display
name as the single token symbol, skip unknown symbols, and discard
spurious APY values outside `(0, 2)`. -/
def yearnRecord (vault : YearnVault) : Option BasicRecord :=
  if strOccursIn "experimental" (lowerAscii vault.name) then none
  else
    match WrappedAsset.wrap vault.displayName with
    | none => none
    | some asset =>
      if vault.apyOneMonthSample ≤ 0 ∨ 2 ≤ vault.apyOneMonthSample then none
      else some ⟨Network.Ethereum, Protocol.Yearn, [asset], vault.apyOneMonthSample⟩

/-- `_ingest_yearn` from `ingest.py`. -/
def _ingest_yearn (vaults : List YearnVault) : RecordList :=
  vaults.filterMap yearnRecord

/-- One token entry of a Zapper pool stat. -/
structure ZapperToken where
  symbol : String
  reserve : ℚ
  deriving DecidableEq, Repr

/-- One pool stat returned by Zapper's `pool-stats` endpoint;
`yearlyROI_or_zero` is the yearlyROI field with null coalesced to 0. -/
structure ZapperPoolStat where
  tokens : List ZapperToken
  yearlyROI_or_zero : ℚ
  deriving DecidableEq, Repr

/-- Processing of one Zapper pool stat inside `_ingest_zapper`'s pool loop
(for a fixed protocol and network): wrap symbols of tokens with positive
reserve, require exactly two resolved assets with none unknown, and a
positive APY. -/
def zapperPoolRecord (protocol : Protocol) (stat : ZapperPoolStat) :
    Option BasicRecord :=
  let wrapped := (stat.tokens.filter (fun t => 0 < t.reserve)).map
    (fun t => WrappedAsset.wrap t.symbol)
  let any_unknown := wrapped.any (fun a => a.isNone)
  let assets := wrapped.reduceOption
  if assets.length ≠ 2 ∨ any_unknown then none
  else if stat.yearlyROI_or_zero ≤ 0 then none
  else some ⟨Network.Ethereum, protocol, assets, stat.yearlyROI_or_zero⟩

/-- One lending stat returned by Zapper's `lending-stats` endpoint. -/
structure ZapperLendingStat where
  symbol : String
  supplyApy : ℚ
  deriving DecidableEq, Repr

/-- Processing of one Zapper lending stat inside `_ingest_zapper`'s lending
loop. -/
def zapperLendingRecord (protocol : Protocol) (stat : ZapperLendingStat) :
    Option BasicRecord :=
  match WrappedAsset.wrap stat.symbol with
  | none => none
  | some asset =>
    if stat.supplyApy ≤ 0 then none
    else some ⟨Network.Ethereum, protocol, [asset], stat.supplyApy⟩

/-! ## `ingest.py` aggregation -/

/-- `BAD_SYMBOLS` from `ingest.py` (the Python set literal lists `pBTC`
twice; as a set it has these members). -/
def BAD_SYMBOLS : List String :=
  ["crvHBTC", "crvAETHc", "crvRENBTC", "crvBBTC", "crvSBTC", "pBTC", "renBTC",
   "pBTC35A", "ETHIX", "crvSETH", "YF-DAI", "BBTC", "imBTC", "ankrETH", "PETH18C",
   "ibBTC", "ETHY", "CRETH2", "ETHYS", "sBTC"]

/-- Filter predicate of `_filter_records`: no asset's wrapped symbol is
disallowed and the APY is at least `0.01`. -/
def keepRecord (record : BasicRecord) : Bool :=
  !(record.assets.any (fun asset => BAD_SYMBOLS.contains asset.wrapped_symbol))
    && (1 / 100 : ℚ) ≤ record.apy

/-- `_filter_records` from `ingest.py`. -/
def _filter_records (records : RecordList) : RecordList :=
  records.filter keepRecord

/-- Error raised by a connector on a non-timeout fetch/parse failure. -/
structure SourceError where
  message : String
  deriving DecidableEq, Repr

/-- `asyncio.gather` without `return_exceptions`: if any task raises, the
exception propagates to the awaiter instead of a result list. -/
def gatherResults {ε α : Type} : List (Except ε α) → Except ε (List α)
  | [] => .ok []
  | .error e :: _ => .error e
  | .ok a :: rest =>
    match gatherResults rest with
    | .error e => .error e
    | .ok as => .ok (a :: as)

/-- `ingest` from `ingest.py`, as a function of each connector's outcome
(in the declaration order of `ingests_tasks`): gather all connector
results, then filter the concatenation.  A connector failure propagates
out of `gather` and aborts the aggregation. -/
def ingest (connector_results : List (Except SourceError RecordList)) :
    Except SourceError RecordList :=
  match gatherResults connector_results with
  | .error e => .error e
  | .ok lists => .ok (_filter_records lists.flatten)

/-! ## `utils.py` rate limiter -/

/-- State constructed by `ContinuousRateLimiter.__init__` (timestamps and
logging omitted; they play no role in construction). -/
structure ContinuousRateLimiter where
  max_operations_per_second : ℚ
  sleep_per_operation_seconds : ℚ
  jitter_seconds : Option ℚ
  name : String
  deriving DecidableEq, Repr

/-- `ContinuousRateLimiter.make` from `utils.py`: defaults a missing
per-second figure to 0, adds per-minute divided by 60 and per-hour divided
by 3600, raises `ValueError` when the sum equals zero, derives the jitter
bound, and constructs the limiter. -/
def ContinuousRateLimiter.make (name : String)
    (operations_per_hour operations_per_minute operations_per_second
      jitter_percentage : Option ℚ) :
    Except String ContinuousRateLimiter :=
  let ops0 : ℚ := operations_per_second.getD 0
  let ops1 : ℚ :=
    match operations_per_minute with
    | none => ops0
    | some opm => ops0 + opm / 60
  let ops2 : ℚ :=
    match operations_per_hour with
    | none => ops1
    | some oph => ops1 + oph / (60 * 60)
  if ops2 = 0 then .error "rate limiter cannot be unlimited"
  else
    let jitter_seconds :=
      match jitter_percentage with
      | none => none
      | some jp => some (jp / ops2)
    .ok ⟨ops2, 1 / ops2, jitter_seconds, name⟩

/-- Effective operations-per-second value `make` computes before its zero
check. -/
def effectiveRate
    (operations_per_hour operations_per_minute operations_per_second :
      Option ℚ) : ℚ :=
  operations_per_second.getD 0
    + (match operations_per_minute with
       | none => 0
       | some opm => opm / 60)
    + (match operations_per_hour with
       | none => 0
       | some oph => oph / (60 * 60))

/-! ## `api.py` -/

/-- `AssetSingle` response model from `api.py` (descriptive fields only). -/
structure AssetSingle where
  network : Network
  protocol : Protocol
  symbol : Asset
  symbol_wrapped : String
  apy : ℚ
  risk_profile : RiskProfile
  deriving DecidableEq, Repr

/-- `AssetPair` response model from `api.py`. -/
structure AssetPair where
  network : Network
  protocol : Protocol
  symbol_0 : Asset
  symbol_0_wrapped : String
  symbol_1 : Asset
  symbol_1_wrapped : String
  apy : ℚ
  risk_profile : RiskProfile
  deriving DecidableEq, Repr

/-- `_get_risk_profile_for_single` from `api.py`. -/
def _get_risk_profile_for_single (asset : Asset) : RiskProfile :=
  if asset.is_stable then RiskProfile.Low else RiskProfile.High

/-- `_get_risk_profile_for_pair` from `api.py`. -/
def _get_risk_profile_for_pair (asset_0 asset_1 : Asset) : RiskProfile :=
  if asset_0.is_stable then
    if asset_1.is_stable then RiskProfile.Low else RiskProfile.Medium
  else RiskProfile.High

/-- Element of the combined list, `Union[AssetSingle, AssetPair]`. -/
inductive ApiEntry
  | single (a : AssetSingle)
  | pair (p : AssetPair)
  deriving DecidableEq, Repr

/-- APY of a combined-list element, the sort key used by
`_update_state`. -/
def ApiEntry.apy : ApiEntry → ℚ
  | .single a => a.apy
  | .pair p => p.apy

/-- Conversion of a one-asset record inside `_update_ingest`'s loop. -/
def recordToSingle (record : BasicRecord) : Option AssetSingle :=
  match record.assets with
  | [a] => some ⟨record.network, record.protocol, a.asset, a.wrapped_symbol,
      record.apy, _get_risk_profile_for_single a.asset⟩
  | _ => none

/-- Conversion of a two-asset record inside `_update_ingest`'s loop. -/
def recordToPair (record : BasicRecord) : Option AssetPair :=
  match record.assets with
  | [a, b] => some ⟨record.network, record.protocol, a.asset, a.wrapped_symbol,
      b.asset, b.wrapped_symbol, record.apy,
      _get_risk_profile_for_pair a.asset b.asset⟩
  | _ => none

/-- `_update_ingest` from `api.py`, as a function of the aggregator output:
single-asset records become `AssetSingle`s and two-asset records become
`AssetPair`s, each list in record order; records with any other asset count
are skipped. -/
def _update_ingest (records : RecordList) :
    List AssetSingle × List AssetPair :=
  (records.filterMap recordToSingle, records.filterMap recordToPair)

/-- Stable descending sort by a rational key, modelling Python's stable
`list.sort(key=..., reverse=True)`. -/
def sortDescBy {α : Type} (key : α → ℚ) (l : List α) : List α :=
  @List.insertionSort α (fun a b => key b ≤ key a)
    (fun a b => inferInstanceAs (Decidable (key b ≤ key a))) l

/-- The three lists published on `asgi_app.state`. -/
structure ApiState where
  assets : List AssetSingle
  asset_pairs : List AssetPair
  combined : List ApiEntry
  deriving DecidableEq, Repr

/-- The state `_update_state` publishes from a successful aggregator
output: the combined list is built from the unsorted lists (Python builds
`combined` before the in-place sorts), then all three are sorted by
descending APY. -/
def _update_state_pure (records : RecordList) : ApiState :=
  let converted := _update_ingest records
  let combined := converted.1.map ApiEntry.single
    ++ converted.2.map ApiEntry.pair
  ⟨sortDescBy (fun a => a.apy) converted.1,
   sortDescBy (fun p => p.apy) converted.2,
   sortDescBy ApiEntry.apy combined⟩

/-- `_update_state` from `api.py` for one refresh cycle, as a function of
that cycle's connector outcomes: when `ingest` raises, the exception
propagates before any state assignment; otherwise the new state is
published. -/
def _update_state (cycle : List (Except SourceError RecordList)) :
    Except SourceError ApiState :=
  match ingest cycle with
  | .error e => .error e
  | .ok records => .ok (_update_state_pure records)

/-- `_update_state_loop` from `api.py` over a finite schedule of refresh
cycles: the bare `while True` body awaits `_update_state` with no exception
handler, so an erroring cycle terminates the task (flag `false`), keeping
the previously published state and processing no further cycle; otherwise
the loop continues (`true` when all scheduled cycles ran). -/
def _update_state_loop (st : ApiState) :
    List (List (Except SourceError RecordList)) → ApiState × Bool
  | [] => (st, true)
  | cycle :: rest =>
    match _update_state cycle with
    | .error _ => (st, false)
    | .ok st' => _update_state_loop st' rest

instance {ε α : Type} [DecidableEq ε] [DecidableEq α] :
    DecidableEq (Except ε α) := fun x y =>
  match x, y with
  | .ok a, .ok b =>
    if h : a = b then .isTrue (by rw [h]) else .isFalse (by simp [h])
  | .error a, .error b =>
    if h : a = b then .isTrue (by rw [h]) else .isFalse (by simp [h])
  | .ok _, .error _ => .isFalse (by simp)
  | .error _, .ok _ => .isFalse (by simp)

/-! ## Concrete inputs used by counterexamples and witnesses -/

/-- A single-asset record as Yearn would produce it. -/
def demoRecordA : BasicRecord :=
  ⟨Network.Ethereum, Protocol.Yearn, [⟨Asset.Bitcoin, "WBTC"⟩], 2 / 100⟩

/-- A single-asset record as Aave would produce it. -/
def demoRecordB : BasicRecord :=
  ⟨Network.Ethereum, Protocol.Aave, [⟨Asset.Ethereum, "WETH"⟩], 5 / 100⟩

/-- An ethereum Bancor pool with three resolvable reserve symbols. -/
def threeReservePool : BancorPool :=
  ⟨"ethereum", [⟨"WBTC"⟩, ⟨"WETH"⟩, ⟨"DAI"⟩], 100, 1000⟩

/-- The record `_ingest_bancor` produces for `threeReservePool`. -/
def threeAssetRecord : BasicRecord :=
  ⟨Network.Ethereum, Protocol.Bancor,
   [⟨Asset.Bitcoin, "WBTC"⟩, ⟨Asset.Ethereum, "WETH"⟩, ⟨Asset.DAI, "DAI"⟩],
   146097 / 4000⟩

/-- A published state before a refresh cycle. -/
def initApiState : ApiState := ⟨[], [], []⟩

/-- A refresh cycle whose only connector raises a `SourceError`. -/
def errorCycle : List (Except SourceError RecordList) :=
  [.error ⟨"zapper parse error"⟩]

/-- A refresh cycle whose only connector succeeds with one record. -/
def goodCycle : List (Except SourceError RecordList) :=
  [.ok [demoRecordA]]

/-- A single-asset record whose APY of 0.005 is below the 0.01 floor. -/
def lowApyRecord : BasicRecord :=
  ⟨Network.Ethereum, Protocol.Yearn, [⟨Asset.Bitcoin, "WBTC"⟩], 5 / 1000⟩

/-- Prop-level form of the `_filter_records` predicate: no asset symbol is
disallowed and the APY is at least the 0.01 floor. -/
def KeepsRecord (record : BasicRecord) : Prop :=
  (∀ a ∈ record.assets, a.wrapped_symbol ∉ BAD_SYMBOLS)
    ∧ (1 / 100 : ℚ) ≤ record.apy

/-- Waits, in seconds, that `_do_get` sleeps after each of `k` leading
timeouts: `2 ^ min (attempt, 5)` after attempt number `attempt`. -/
def backoffWaits (k : Nat) : List Nat :=
  (List.range k).map (fun i => 2 ^ min (i + 1) 5)

/-! ## Supporting lemmas -/

lemma gatherResults_map_ok {ε α : Type} (results : List α) :
    gatherResults (ε := ε) (results.map .ok) = .ok results := by
  induction results with
  | nil => rfl
  | cons r rest ih => simp [gatherResults, ih]

lemma gatherResults_append_error {ε α : Type} (results : List α)
    (e : ε) (rest : List (Except ε α)) :
    gatherResults (results.map .ok ++ .error e :: rest) = .error e := by
  induction results with
  | nil => rfl
  | cons r rs ih => simp [gatherResults, ih]

/-- Backoff waits produced by the retry loop when the attempt counter
starts at `n` and `k` further timeouts occur. -/
def waitsFrom (n : Nat) : Nat → List Nat
  | 0 => []
  | k + 1 => 2 ^ min (n + 1) 5 :: waitsFrom (n + 1) k

lemma waitsFrom_eq (k : Nat) :
    ∀ n : Nat, waitsFrom n k = (List.range k).map (fun i => 2 ^ min (n + i + 1) 5) := by
  induction k with
  | zero => intro n; rfl
  | succ k ih =>
    intro n
    rw [waitsFrom, ih (n + 1), List.range_succ_eq_map, List.map_cons, List.map_map]
    refine congrArg (fun l => 2 ^ min (n + 1) 5 :: l) (List.map_congr_left ?_)
    intro i _
    have h : n + 1 + i + 1 = n + Nat.succ i + 1 := by omega
    simp [Function.comp, h]

lemma backoffWaits_eq_waitsFrom (k : Nat) : backoffWaits k = waitsFrom 0 k := by
  rw [backoffWaits, waitsFrom_eq k 0]
  exact List.map_congr_left (fun i _ => by simp)

lemma doGetAux_replicate_timeout {α : Type} (k : Nat) :
    ∀ (n : Nat) (tail : List (FetchOutcome α)),
      doGetAux n (List.replicate k .timeout ++ tail)
        = ((doGetAux (n + k) tail).1, waitsFrom n k ++ (doGetAux (n + k) tail).2) := by
  induction k with
  | zero => intro n tail; simp [waitsFrom]
  | succ k ih =>
    intro n tail
    rw [List.replicate_succ, List.cons_append]
    show ((doGetAux (n + 1) (List.replicate k .timeout ++ tail)).1,
        2 ^ min (n + 1) 5 :: (doGetAux (n + 1) (List.replicate k .timeout ++ tail)).2) = _
    rw [ih (n + 1) tail, waitsFrom]
    have h : n + 1 + k = n + (k + 1) := by omega
    simp [h]

lemma waitsFrom_le_32 (k : Nat) :
    ∀ n, (waitsFrom n k).all (fun w => w ≤ 32) = true := by
  induction k with
  | zero => intro n; rfl
  | succ k ih =>
    intro n
    rw [waitsFrom]
    simp only [List.all_cons, ih (n + 1), Bool.and_true]
    simpa using Nat.pow_le_pow_right (by norm_num) (min_le_right (n + 1) 5)

/-- C5: for every fetch attempt of the HTTP fetch adapter, a timeout is
never surfaced to the caller but retried, sleeping `2 ^ min (attempt, 5)`
seconds (the formula in `backoffWaits`, capped at 32) before the next
attempt, with the attempt counter unbounded; a non-timeout failure
propagates immediately without further retries or waits; a successful
response returns the decoded value. -/
theorem C5_do_get_retry {α : Type} (k : Nat) (v : α) (e : String)
    (rest : List (FetchOutcome α)) :
    _do_get (List.replicate k .timeout ++ .success v :: rest)
      = (some (.ok v), backoffWaits k)
    ∧ _do_get (List.replicate k .timeout ++ .failure e :: rest)
      = (some (.error e), backoffWaits k)
    ∧ _do_get (List.replicate k (.timeout : FetchOutcome α)) = (none, backoffWaits k)
    ∧ (backoffWaits k).all (fun w => w ≤ 32) = true := by
  have hs := doGetAux_replicate_timeout k 0 (.success v :: rest)
  have hf := doGetAux_replicate_timeout k 0 (.failure e :: rest)
  have ht := doGetAux_replicate_timeout (α := α) k 0 []
  have hempty : List.replicate k (.timeout : FetchOutcome α)
      = List.replicate k .timeout ++ [] := by simp
  rw [backoffWaits_eq_waitsFrom]
  refine ⟨?_, ?_, ?_, ?_⟩
  · rw [_do_get, hs]; simp [doGetAux]
  · rw [_do_get, hf]; simp [doGetAux]
  · rw [_do_get, hempty, ht]; simp [doGetAux]
  · exact waitsFrom_le_32 k 0

/-- C1 counterexample: with three connectors of which exactly the second
fails, `ingest` does not complete with the other connectors' filtered
concatenation; the exception from `asyncio.gather` propagates instead. -/
theorem C1_counterexample :
    ingest [.ok [demoRecordA], .error ⟨"bancor parse error"⟩, .ok [demoRecordB]]
      = .error ⟨"bancor parse error"⟩
    ∧ ingest [.ok [demoRecordA], .error ⟨"bancor parse error"⟩, .ok [demoRecordB]]
      ≠ .ok (_filter_records ([demoRecordA] ++ [demoRecordB])) :=
  ⟨rfl, by decide⟩

/-- C1 (amended): the Aggregator returns the filtered concatenation of the
connectors' outputs in declaration order only when every connector
succeeds; as soon as any connector fails with a `SourceError`, the failure
propagates out of `ingest` and aborts the whole aggregation, discarding the
sibling connectors' results. -/
theorem C1_amended (successes : List RecordList) (e : SourceError)
    (rest : List (Except SourceError RecordList)) :
    ingest (successes.map .ok) = .ok (_filter_records successes.flatten)
    ∧ ingest (successes.map .ok ++ .error e :: rest) = .error e := by
  constructor
  · simp [ingest, gatherResults_map_ok]
  · simp [ingest, gatherResults_append_error]

lemma make_eq (name : String) (oph opm ops jp : Option ℚ) :
    ContinuousRateLimiter.make name oph opm ops jp
      = if effectiveRate oph opm ops = 0 then
          .error "rate limiter cannot be unlimited"
        else
          .ok ⟨effectiveRate oph opm ops, 1 / effectiveRate oph opm ops,
            (match jp with
             | none => none
             | some j => some (j / effectiveRate oph opm ops)), name⟩ := by
  unfold ContinuousRateLimiter.make effectiveRate
  cases opm <;> cases oph <;> simp [add_assoc]

/-- C4 counterexample: a configured rate of `-1` operations per second has
a negative effective rate, yet `ContinuousRateLimiter.make` succeeds and
returns a limiter with a negative rate, because the code only rejects an
effective rate equal to zero. -/
theorem C4_counterexample :
    effectiveRate none none (some (-1)) < 0
    ∧ ContinuousRateLimiter.make "bancor" none none (some (-1)) none
        = .ok ⟨-1, -1, none, "bancor"⟩ := by
  constructor
  · norm_num [effectiveRate]
  · rw [make_eq]
    norm_num [effectiveRate]

/-- C4 (amended): rate limiter construction sums per-second, per-minute/60
and per-hour/3600 contributions into one effective operations-per-second
value, and construction fails with a configuration error exactly when the
resulting rate equals zero; a negative effective rate is accepted and
produces a limiter with that negative rate. -/
theorem C4_amended (name : String) (oph opm ops jp : Option ℚ) :
    (ContinuousRateLimiter.make name oph opm ops jp
        = .error "rate limiter cannot be unlimited"
      ↔ effectiveRate oph opm ops = 0)
    ∧ (∀ lim : ContinuousRateLimiter,
        ContinuousRateLimiter.make name oph opm ops jp = .ok lim →
          lim.max_operations_per_second = effectiveRate oph opm ops
          ∧ lim.sleep_per_operation_seconds = 1 / effectiveRate oph opm ops) := by
  rw [make_eq]
  by_cases h : effectiveRate oph opm ops = 0 <;> simp [h]

/-- Witness for C4 (amended) at a concrete configuration: one operation
per second is accepted and the limiter carries rate 1. -/
theorem C4_amended_witness :
    ContinuousRateLimiter.make "zapper" none none (some 1) none
      = .ok ⟨1, 1, none, "zapper"⟩
    ∧ (⟨1, 1, none, "zapper"⟩ : ContinuousRateLimiter).max_operations_per_second
        = effectiveRate none none (some 1) :=
  ⟨by simp [make_eq, effectiveRate],
   ((C4_amended "zapper" none none (some 1) none).2 ⟨1, 1, none, "zapper"⟩
     (by simp [make_eq, effectiveRate])).1⟩

lemma keepRecord_iff (record : BasicRecord) :
    keepRecord record = true ↔ KeepsRecord record := by
  rw [keepRecord, KeepsRecord]
  simp [List.contains_iff_exists_mem_beq]

lemma bancorRecord_threeReservePool :
    bancorRecord threeReservePool = some threeAssetRecord := by
  rw [bancorRecord]
  have hw : (threeReservePool.reserves.map
        (fun r => WrappedAsset.wrap r.symbol)).reduceOption
      = [⟨Asset.Bitcoin, "WBTC"⟩, ⟨Asset.Ethereum, "WETH"⟩, ⟨Asset.DAI, "DAI"⟩] := by
    decide
  rw [hw]
  norm_num [threeReservePool, threeAssetRecord, Network.value, daysPerYear]

lemma keepRecord_threeAssetRecord : keepRecord threeAssetRecord = true := by
  have h1 : (threeAssetRecord.assets.any
      (fun a => BAD_SYMBOLS.contains a.wrapped_symbol)) = false := by decide
  rw [keepRecord, h1]
  norm_num [threeAssetRecord]

lemma bancorRecord_length {pool : BancorPool} {record : BasicRecord}
    (h : bancorRecord pool = some record) : 1 ≤ record.assets.length := by
  simp only [bancorRecord] at h
  split at h
  · exact absurd h (by simp)
  · split at h
    · exact absurd h (by simp)
    · split at h
      · exact absurd h (by simp)
      · cases h
        refine Nat.not_lt.mp ?_
        assumption

lemma dydxRecord_length {market : DydxMarket} {record : BasicRecord}
    (h : dydxRecord market = some record) : record.assets.length = 1 := by
  rw [dydxRecord] at h
  split at h
  · exact absurd h (by simp)
  · split at h
    · exact absurd h (by simp)
    · cases h; rfl

lemma aaveRecord_length {reserve : AaveReserve} {record : BasicRecord}
    (h : aaveRecord reserve = some record) : record.assets.length = 1 := by
  rw [aaveRecord] at h
  split at h
  · exact absurd h (by simp)
  · split at h
    · exact absurd h (by simp)
    · cases h; rfl

lemma yearnRecord_length {vault : YearnVault} {record : BasicRecord}
    (h : yearnRecord vault = some record) : record.assets.length = 1 := by
  rw [yearnRecord] at h
  split at h
  · exact absurd h (by simp)
  · split at h
    · exact absurd h (by simp)
    · split at h
      · exact absurd h (by simp)
      · cases h; rfl

lemma zapperPoolRecord_length {proto : Protocol} {stat : ZapperPoolStat}
    {record : BasicRecord} (h : zapperPoolRecord proto stat = some record) :
    record.assets.length = 2 := by
  rw [zapperPoolRecord] at h
  split at h
  · exact absurd h (by simp)
  · split at h
    · exact absurd h (by simp)
    · cases h
      next hguard _ =>
        push_neg at hguard
        simpa using hguard.1

lemma zapperLendingRecord_length {proto : Protocol} {stat : ZapperLendingStat}
    {record : BasicRecord} (h : zapperLendingRecord proto stat = some record) :
    record.assets.length = 1 := by
  rw [zapperLendingRecord] at h
  split at h
  · exact absurd h (by simp)
  · split at h
    · exact absurd h (by simp)
    · cases h; rfl

/-- C2 counterexample: a well-formed Bancor pool with three resolvable
reserve symbols produces a record with three assets, and that record
survives `_filter_records` into the Aggregator's output, refuting the
claimed output invariant that every record has exactly 1 or 2 assets. -/
theorem C2_counterexample :
    ingest [.ok [], .ok (_ingest_bancor [threeReservePool]), .ok [], .ok [], .ok []]
      = .ok [threeAssetRecord]
    ∧ threeAssetRecord.assets.length = 3 := by
  have h1 : _ingest_bancor [threeReservePool] = [threeAssetRecord] := by
    simp [_ingest_bancor, bancorRecord_threeReservePool]
  rw [h1]
  constructor
  · simp [ingest, gatherResults, _filter_records, keepRecord_threeAssetRecord]
  · rfl

/-- C2 (amended): records from the dYdX, Aave, Yearn and Zapper connectors
have exactly 1 or 2 assets, but a Bancor record is only required to have at
least 1 asset (pools with 3 or more resolvable reserves pass through), so
the Aggregator output invariant is `1 ≤ len(assets)`, not
`len(assets) ∈ \x7b1, 2\x7d`; every output record additionally passed the
APY floor of 0.01 (finite by construction in the rational model). -/
theorem C2_amended (pools : List BancorPool) (markets : List DydxMarket)
    (reserves : List AaveReserve) (vaults : List YearnVault)
    (pstats : List ZapperPoolStat) (lstats : List ZapperLendingStat)
    (proto : Protocol) (results : List RecordList) (out : RecordList) :
    (∀ record ∈ _ingest_bancor pools, 1 ≤ record.assets.length)
    ∧ (∀ record ∈ _ingest_dydx markets, record.assets.length = 1)
    ∧ (∀ record ∈ _ingest_aave reserves, record.assets.length = 1)
    ∧ (∀ record ∈ _ingest_yearn vaults, record.assets.length = 1)
    ∧ (∀ record ∈ pstats.filterMap (zapperPoolRecord proto),
        record.assets.length = 2)
    ∧ (∀ record ∈ lstats.filterMap (zapperLendingRecord proto),
        record.assets.length = 1)
    ∧ (ingest (results.map .ok) = .ok out →
        ∀ record ∈ out, record ∈ results.flatten ∧ (1 / 100 : ℚ) ≤ record.apy) := by
  refine ⟨?_, ?_, ?_, ?_, ?_, ?_, ?_⟩
  · intro record hr
    obtain ⟨pool, _, hp⟩ := List.mem_filterMap.mp hr
    exact bancorRecord_length hp
  · intro record hr
    obtain ⟨m, _, hp⟩ := List.mem_filterMap.mp hr
    exact dydxRecord_length hp
  · intro record hr
    obtain ⟨m, _, hp⟩ := List.mem_filterMap.mp hr
    exact aaveRecord_length hp
  · intro record hr
    obtain ⟨m, _, hp⟩ := List.mem_filterMap.mp hr
    exact yearnRecord_length hp
  · intro record hr
    obtain ⟨m, _, hp⟩ := List.mem_filterMap.mp hr
    exact zapperPoolRecord_length hp
  · intro record hr
    obtain ⟨m, _, hp⟩ := List.mem_filterMap.mp hr
    exact zapperLendingRecord_length hp
  · intro hout record hr
    rw [ingest, gatherResults_map_ok] at hout
    cases hout
    have hm := List.mem_filter.mp hr
    exact ⟨hm.1, ((keepRecord_iff record).mp hm.2).2⟩

/-- Witness for C2 (amended): the three-asset Bancor record satisfies the
amended lower bound. -/
theorem C2_amended_witness : 1 ≤ threeAssetRecord.assets.length :=
  (C2_amended [threeReservePool] [] [] [] [] [] Protocol.Bancor [] []).1
    threeAssetRecord
    (by simp [_ingest_bancor, bancorRecord_threeReservePool])

/-- C3 counterexample: a schedule of two refresh cycles in which the first
raises shows the loop terminating instead of catching the error: the flag
is `false` (the background task died) and the second, succeeding cycle is
never applied, though the previously published state is retained. -/
theorem C3_counterexample :
    _update_state_loop initApiState [errorCycle, goodCycle] = (initApiState, false)
    ∧ (_update_state_loop initApiState [errorCycle, goodCycle]).1
      ≠ _update_state_pure [demoRecordA] := by
  refine ⟨rfl, fun h => ?_⟩
  have h2 : initApiState = _update_state_pure [demoRecordA] := h
  have hlen := congrArg (fun st : ApiState => st.assets.length) h2
  simp [initApiState, _update_state_pure, _update_ingest, recordToSingle,
    demoRecordA, sortDescBy, List.length_insertionSort] at hlen

/-- C3 (amended): if a refresh cycle raises an unrecoverable error, the
previously published state is kept unchanged (the assignments happen only
after a successful ingest), but the error is NOT caught at the loop
boundary: the refresh task terminates and no further refresh is scheduled;
only successful cycles continue the loop. -/
theorem C3_amended (st : ApiState) (cycle : List (Except SourceError RecordList))
    (e : SourceError) (rest : List (List (Except SourceError RecordList))) :
    (ingest cycle = .error e → _update_state_loop st (cycle :: rest) = (st, false))
    ∧ (∀ records : RecordList, ingest cycle = .ok records →
        _update_state_loop st (cycle :: rest)
          = _update_state_loop (_update_state_pure records) rest) := by
  constructor
  · intro h
    simp [_update_state_loop, _update_state, h]
  · intro records h
    simp [_update_state_loop, _update_state, h]

/-- Witness for C3 (amended): the failing cycle followed by a good cycle,
at the initial state. -/
theorem C3_amended_witness :
    _update_state_loop initApiState (errorCycle :: [goodCycle])
      = (initApiState, false) :=
  (C3_amended initApiState errorCycle ⟨"zapper parse error"⟩ [goodCycle]).1 rfl

/-- C7: the Aggregator's final filter keeps exactly the records with no
disallowed asset symbol and APY at least 0.01, preserves the order of
survivors (the output is a sublist of the input), and neither merges nor
deduplicates records (each surviving record keeps its multiplicity, and a
dropped record has multiplicity 0). -/
theorem C7_filter_records (records : RecordList) (record : BasicRecord) :
    (record ∈ _filter_records records ↔ record ∈ records ∧ KeepsRecord record)
    ∧ List.Sublist (_filter_records records) records
    ∧ (KeepsRecord record →
        (_filter_records records).count record = records.count record)
    ∧ (¬ KeepsRecord record → (_filter_records records).count record = 0) := by
  refine ⟨?_, List.filter_sublist _, ?_, ?_⟩
  · simp [_filter_records, List.mem_filter, keepRecord_iff]
  · intro hk
    exact List.count_filter ((keepRecord_iff record).mpr hk)
  · intro hk
    refine List.count_eq_zero.mpr (fun hmem => ?_)
    exact hk ((keepRecord_iff record).mp (List.mem_filter.mp hmem).2)

/-- Witness for C7 at a concrete input: `demoRecordA` (APY 0.02) is kept
with its multiplicity while `lowApyRecord` (APY 0.005, below the floor) is
dropped. -/
theorem C7_filter_records_witness :
    (_filter_records [demoRecordA, lowApyRecord]).count demoRecordA
      = ([demoRecordA, lowApyRecord] : RecordList).count demoRecordA
    ∧ (_filter_records [demoRecordA, lowApyRecord]).count lowApyRecord = 0 :=
  ⟨(C7_filter_records [demoRecordA, lowApyRecord] demoRecordA).2.2.1
      ⟨by decide, by norm_num [demoRecordA]⟩,
   (C7_filter_records [demoRecordA, lowApyRecord] lowApyRecord).2.2.2
      (fun h => absurd h.2 (by norm_num [lowApyRecord]))⟩

lemma asset_forall (p : Asset → Prop) :
    (∀ a : Asset, p a) ↔
      p .Bitcoin ∧ p .Ethereum ∧ p .DAI ∧ p .USD_Coin ∧ p .USD_Token :=
  ⟨fun h => ⟨h _, h _, h _, h _, h _⟩, fun h a => by
    obtain ⟨h1, h2, h3, h4, h5⟩ := h
    cases a <;> assumption⟩

set_option maxHeartbeats 3200000 in
/-- C6: Asset registry lookup returns the first canonical asset, in the
declared enumeration order (BTC, ETH, DAI, USDC, USDT), whose base symbol
occurs as a substring of the input; it returns `none` exactly when no
canonical symbol occurs; and when exactly one canonical symbol occurs, it
returns that asset. -/
theorem C6_asset_map (s : String) :
    (Asset.map s = none ↔ ∀ a : Asset, strOccursIn a.value s = false)
    ∧ (∀ a : Asset, Asset.map s = some a ↔
        (strOccursIn a.value s = true
          ∧ ∀ b : Asset, b.idx < a.idx → strOccursIn b.value s = false))
    ∧ (∀ a : Asset, strOccursIn a.value s = true →
        (∀ b : Asset, b ≠ a → strOccursIn b.value s = false) →
        Asset.map s = some a) := by
  by_cases h0 : strOccursIn "BTC" s = true <;>
    by_cases h1 : strOccursIn "ETH" s = true <;>
    by_cases h2 : strOccursIn "DAI" s = true <;>
    by_cases h3 : strOccursIn "USDC" s = true <;>
    by_cases h4 : strOccursIn "USDT" s = true <;>
    refine ⟨?_, fun a => ?_, fun a ha hb => ?_⟩ <;>
    (try cases a) <;>
    simp_all [Asset.map, Asset.all, Asset.value, Asset.idx, List.find?,
      asset_forall]

/-- Witness for C6: the input WBTC contains exactly the canonical symbol
BTC, and lookup returns Bitcoin. -/
theorem C6_asset_map_witness : Asset.map "WBTC" = some Asset.Bitcoin :=
  (C6_asset_map "WBTC").2.2 Asset.Bitcoin (by decide) (by decide)

/-- C10: pair risk classification is asymmetric: both stable gives Low, a
stable first with non-stable second gives Medium, and a non-stable first
gives High regardless of the second (so the reversed pair of a Medium pair
is High); a single asset is Low when stable and High otherwise, and is
never Medium. -/
theorem C10_risk_profile :
    (∀ a b : Asset, _get_risk_profile_for_pair a b = RiskProfile.Low
      ↔ (a.is_stable = true ∧ b.is_stable = true))
    ∧ (∀ a b : Asset, _get_risk_profile_for_pair a b = RiskProfile.Medium
      ↔ (a.is_stable = true ∧ b.is_stable = false))
    ∧ (∀ a b : Asset, _get_risk_profile_for_pair a b = RiskProfile.High
      ↔ a.is_stable = false)
    ∧ _get_risk_profile_for_pair Asset.DAI Asset.Bitcoin = RiskProfile.Medium
    ∧ _get_risk_profile_for_pair Asset.Bitcoin Asset.DAI = RiskProfile.High
    ∧ (∀ a : Asset, _get_risk_profile_for_single a
        = if a.is_stable then RiskProfile.Low else RiskProfile.High)
    ∧ (∀ a : Asset, _get_risk_profile_for_single a ≠ RiskProfile.Medium) := by
  decide

lemma orderedInsert_filter {α : Type} (key : α → ℚ) (p : α → Bool) (x : α)
    (hp : ∀ b, p b = true → p x = true → key b ≤ key x) :
    ∀ l : List α,
      (List.orderedInsert (fun a b => key b ≤ key a) x l).filter p
        = if p x then x :: l.filter p else l.filter p := by
  intro l
  induction l with
  | nil =>
    by_cases hx : p x = true <;> simp [List.orderedInsert, hx]
  | cons b t ih =>
    rw [List.orderedInsert]
    by_cases hr : key b ≤ key x
    · rw [if_pos hr]
      by_cases hx : p x = true <;> simp [List.filter_cons, hx]
    · rw [if_neg hr, List.filter_cons]
      by_cases hb : p b = true
      · have hxf : p x ≠ true := fun hx => hr (hp b hb hx)
        rw [if_pos hb, ih]
        simp [List.filter_cons, hb, hxf]
      · rw [if_neg hb, ih]
        simp [List.filter_cons, hb]

lemma filter_sortDescBy {α : Type} (key : α → ℚ) (p : α → Bool)
    (hp : ∀ a b, p a = true → p b = true → key a = key b) :
    ∀ l : List α, (sortDescBy key l).filter p = l.filter p := by
  intro l
  induction l with
  | nil => rfl
  | cons x t ih =>
    have hx : sortDescBy key (x :: t)
        = List.orderedInsert (fun a b => key b ≤ key a) x (sortDescBy key t) := rfl
    rw [hx, orderedInsert_filter key p x
        (fun b hb hbx => le_of_eq (hp b x hb hbx)), ih, List.filter_cons]

lemma sorted_sortDescBy {α : Type} (key : α → ℚ) (l : List α) :
    (sortDescBy key l).Sorted (fun a b => key b ≤ key a) := by
  haveI : IsTotal α (fun a b => key b ≤ key a) :=
    ⟨fun a b => le_total (key b) (key a)⟩
  haveI : IsTrans α (fun a b => key b ≤ key a) :=
    ⟨fun a b c h1 h2 => le_trans h2 h1⟩
  exact List.sorted_insertionSort _ l

lemma perm_sortDescBy {α : Type} (key : α → ℚ) (l : List α) :
    (sortDescBy key l).Perm l :=
  List.perm_insertionSort _ l

lemma eq_of_sorted_stable {α : Type} (key : α → ℚ) (l₁ : List α) :
    ∀ l₂ : List α, l₁.Perm l₂
      → l₁.Sorted (fun a b => key b ≤ key a)
      → l₂.Sorted (fun a b => key b ≤ key a)
      → (∀ q : ℚ, l₁.filter (fun a => key a == q)
          = l₂.filter (fun a => key a == q))
      → l₁ = l₂ := by
  induction l₁ with
  | nil =>
    intro l₂ hp _ _ _
    exact (List.Perm.eq_nil hp.symm).symm
  | cons a t₁ ih =>
    intro l₂ hp hs₁ hs₂ hf
    cases l₂ with
    | nil => exact absurd (List.Perm.eq_nil hp) (by simp)
    | cons b t₂ =>
      have hab : key a = key b := by
        have ha2 : a ∈ b :: t₂ := hp.subset (List.mem_cons_self a t₁)
        have hb1 : b ∈ a :: t₁ := hp.symm.subset (List.mem_cons_self b t₂)
        rcases List.mem_cons.mp ha2 with h | h
        · rw [h]
        · rcases List.mem_cons.mp hb1 with h' | h'
          · rw [h']
          · exact le_antisymm (List.rel_of_sorted_cons hs₂ a h)
              (List.rel_of_sorted_cons hs₁ b h')
      have hae : a = b := by
        have hfa := hf (key a)
        rw [List.filter_cons, List.filter_cons] at hfa
        have t1 : ((key a == key a) = true) := by simp
        have t2 : ((key b == key a) = true) := by simp [hab]
        rw [if_pos t1, if_pos t2] at hfa
        exact (List.cons.inj hfa).1
      subst hae
      have hpt : t₁.Perm t₂ := (List.perm_cons a).mp hp
      have hft : ∀ q : ℚ, t₁.filter (fun x => key x == q)
          = t₂.filter (fun x => key x == q) := by
        intro q
        have hq := hf q
        rw [List.filter_cons, List.filter_cons] at hq
        by_cases hc : ((key a == q) = true)
        · rw [if_pos hc, if_pos hc] at hq
          exact (List.cons.inj hq).2
        · rw [if_neg hc, if_neg hc] at hq
          exact hq
      rw [ih t₂ hpt hs₁.of_cons hs₂.of_cons hft]

lemma sortDescBy_append_sortDescBy {α : Type} (key : α → ℚ) (l₁ l₂ : List α) :
    sortDescBy key (sortDescBy key l₁ ++ sortDescBy key l₂)
      = sortDescBy key (l₁ ++ l₂) := by
  have hkq : ∀ q : ℚ, ∀ a b : α,
      ((key a == q) = true) → ((key b == q) = true) → key a = key b := by
    intro q a b ha hb
    rw [beq_iff_eq] at ha hb
    rw [ha, hb]
  apply eq_of_sorted_stable key
  · exact ((perm_sortDescBy key _).trans
      ((perm_sortDescBy key l₁).append (perm_sortDescBy key l₂))).trans
      (perm_sortDescBy key (l₁ ++ l₂)).symm
  · exact sorted_sortDescBy key _
  · exact sorted_sortDescBy key _
  · intro q
    rw [filter_sortDescBy key _ (hkq q), filter_sortDescBy key _ (hkq q),
      List.filter_append, List.filter_append,
      filter_sortDescBy key _ (hkq q), filter_sortDescBy key _ (hkq q)]

lemma map_single_sortDescBy (l : List AssetSingle) :
    (sortDescBy (fun a => a.apy) l).map ApiEntry.single
      = sortDescBy ApiEntry.apy (l.map ApiEntry.single) :=
  @List.map_insertionSort AssetSingle ApiEntry
    (fun a b => b.apy ≤ a.apy)
    (fun a b => ApiEntry.apy b ≤ ApiEntry.apy a)
    (fun a b => inferInstanceAs (Decidable (b.apy ≤ a.apy)))
    (fun a b => inferInstanceAs (Decidable (ApiEntry.apy b ≤ ApiEntry.apy a)))
    ApiEntry.single l (fun _ _ _ _ => Iff.rfl)

lemma map_pair_sortDescBy (l : List AssetPair) :
    (sortDescBy (fun p => p.apy) l).map ApiEntry.pair
      = sortDescBy ApiEntry.apy (l.map ApiEntry.pair) :=
  @List.map_insertionSort AssetPair ApiEntry
    (fun a b => b.apy ≤ a.apy)
    (fun a b => ApiEntry.apy b ≤ ApiEntry.apy a)
    (fun a b => inferInstanceAs (Decidable (b.apy ≤ a.apy)))
    (fun a b => inferInstanceAs (Decidable (ApiEntry.apy b ≤ ApiEntry.apy a)))
    ApiEntry.pair l (fun _ _ _ _ => Iff.rfl)

/-- C8: on a successful refresh, the published single-asset and pair lists
are each sorted by descending APY with a stable sort (elements of any fixed
APY keep their aggregator-output order, expressed by filter preservation),
and the combined list equals the concatenation of the sorted single-asset
list and the sorted pair list re-sorted by descending APY. -/
theorem C8_update_state (records : RecordList) :
    ((_update_state_pure records).assets.Sorted (fun a b => b.apy ≤ a.apy))
    ∧ ((_update_state_pure records).asset_pairs.Sorted (fun a b => b.apy ≤ a.apy))
    ∧ ((_update_state_pure records).combined.Sorted
        (fun a b => ApiEntry.apy b ≤ ApiEntry.apy a))
    ∧ (∀ q : ℚ, (_update_state_pure records).assets.filter (fun a => a.apy == q)
        = (_update_ingest records).1.filter (fun a => a.apy == q))
    ∧ (∀ q : ℚ,
        (_update_state_pure records).asset_pairs.filter (fun p => p.apy == q)
        = (_update_ingest records).2.filter (fun p => p.apy == q))
    ∧ (∀ q : ℚ,
        (_update_state_pure records).combined.filter (fun c => ApiEntry.apy c == q)
        = ((_update_ingest records).1.map ApiEntry.single
            ++ (_update_ingest records).2.map ApiEntry.pair).filter
            (fun c => ApiEntry.apy c == q))
    ∧ ((_update_state_pure records).combined
        = sortDescBy ApiEntry.apy
            ((_update_state_pure records).assets.map ApiEntry.single
              ++ (_update_state_pure records).asset_pairs.map ApiEntry.pair)) := by
  have hkq : ∀ {β : Type} (key : β → ℚ) (q : ℚ), ∀ a b : β,
      ((key a == q) = true) → ((key b == q) = true) → key a = key b := by
    intro β key q a b ha hb
    rw [beq_iff_eq] at ha hb
    rw [ha, hb]
  refine ⟨sorted_sortDescBy _ _, sorted_sortDescBy _ _, sorted_sortDescBy _ _,
    ?_, ?_, ?_, ?_⟩
  · intro q
    exact filter_sortDescBy _ _ (hkq _ q) _
  · intro q
    exact filter_sortDescBy _ _ (hkq _ q) _
  · intro q
    exact filter_sortDescBy _ _ (hkq _ q) _
  · show sortDescBy ApiEntry.apy
        ((_update_ingest records).1.map ApiEntry.single
          ++ (_update_ingest records).2.map ApiEntry.pair)
      = sortDescBy ApiEntry.apy
          ((sortDescBy (fun a => a.apy) (_update_ingest records).1).map
              ApiEntry.single
            ++ (sortDescBy (fun p => p.apy) (_update_ingest records).2).map
              ApiEntry.pair)
    rw [map_single_sortDescBy, map_pair_sortDescBy, sortDescBy_append_sortDescBy]

end Defiveyor
